import Mathlib

/-!
Verification of the sketch-dream repository's state-management core against
its specification.

The embedding below translates the TypeScript source into Lean:
* `DrawingCanvas.tsx` — the undo/redo history ring (`saveHistory`, `undo`,
  `redo`) over serialized canvas snapshots (JSON strings);
* `TextPromptInput` (same file bundle) — the prompt store (`handleChange`,
  `addToHistory`);
* `ControlParameters` — the generation-parameter holder (`updateParam`,
  `resetToDefaults`, `DEFAULT_PARAMS`);
* `generation-service.ts` — `enhancePrompt` and `generateImage`, with the
  random seed (`Math.floor(Math.random() * 1000000)`) passed as an explicit
  argument so the rest of the function is a pure transformation.
-/

namespace SketchDream

/-- History state of the drawing canvas: the `history` array of serialized
snapshots and the `historyIndex` cursor.  The component initialises it to one
entry with cursor 0, and in every reachable state the index is nonnegative,
so the cursor is a `Nat`. -/
structure HistoryState where
  entries : List String
  cursor : Nat
deriving DecidableEq

/-- Initial history: one (blank-canvas) snapshot, cursor 0
(`setHistory([initialState]); setHistoryIndex(0)` in the initialisation
effect of `DrawingCanvas.tsx`). -/
def initialHistory (s0 : String) : HistoryState :=
  { entries := [ s0 ], cursor := 0 }

/-- The `saveHistory` callback of `DrawingCanvas.tsx`: truncate to
`slice(0, historyIndex + 1)`, `shift()` the oldest entry when the kept part
already holds 10 items, append the new snapshot, and set the index to
`Math.min(prev + 1, 9)`. -/
def saveHistory (s : HistoryState) (json : String) : HistoryState :=
  { entries :=
      (if 10 ≤ (s.entries.take (s.cursor + 1)).length
        then (s.entries.take (s.cursor + 1)).drop 1
        else s.entries.take (s.cursor + 1)) ++ [ json ],
    cursor := min (s.cursor + 1) 9 }

/-- The `undo` handler: no-op when `historyIndex <= 0`, otherwise decrement
the index (the decremented snapshot is then loaded onto the canvas). -/
def undo (s : HistoryState) : HistoryState :=
  if s.cursor ≤ 0 then s else { s with cursor := s.cursor - 1 }

/-- The `redo` handler: no-op when `historyIndex >= history.length - 1`,
otherwise increment the index. -/
def redo (s : HistoryState) : HistoryState :=
  if s.entries.length - 1 ≤ s.cursor then s else { s with cursor := s.cursor + 1 }

/-- The snapshot currently shown on the canvas: `history[historyIndex]`. -/
def visibleSnapshot (s : HistoryState) : Option String :=
  s.entries.get? s.cursor

/-- One user-level operation on the history ring. -/
inductive HOp where
  | push (json : String)
  | undo
  | redo
deriving DecidableEq

/-- Apply one operation to the history state. -/
def applyOp (s : HistoryState) : HOp → HistoryState
  | .push j => saveHistory s j
  | .undo => undo s
  | .redo => redo s

/-- Run a sequence of operations from a starting state. -/
def runOps (s : HistoryState) (ops : List HOp) : HistoryState :=
  ops.foldl applyOp s

/-- The ring invariant: at most 10 entries, cursor strictly inside the
entry list. -/
def HistoryInv (s : HistoryState) : Prop :=
  s.entries.length ≤ 10 ∧ s.cursor < s.entries.length

instance (s : HistoryState) : Decidable (HistoryInv s) :=
  decidable_of_iff (s.entries.length ≤ 10 ∧ s.cursor < s.entries.length) Iff.rfl

theorem historyInv_saveHistory (s : HistoryState) (j : String)
    (h : HistoryInv s) : HistoryInv (saveHistory s j) := by
  obtain ⟨ h10, hc ⟩ := h
  simp only [HistoryInv, saveHistory, List.length_append, List.length_singleton]
  constructor <;> split <;>
    simp only [List.length_drop, List.length_take] at * <;> omega

theorem historyInv_applyOp (s : HistoryState) (op : HOp)
    (h : HistoryInv s) : HistoryInv (applyOp s op) := by
  obtain ⟨ h10, hc ⟩ := h
  cases op with
  | push j => exact historyInv_saveHistory s j ⟨ h10, hc ⟩
  | undo =>
      simp only [applyOp, undo]
      split
      · exact ⟨ h10, hc ⟩
      · exact ⟨ h10, show s.cursor - 1 < s.entries.length by omega ⟩
  | redo =>
      simp only [applyOp, redo]
      split
      · exact ⟨ h10, hc ⟩
      · rename_i hlt
        simp only [not_le] at hlt
        exact ⟨ h10, show s.cursor + 1 < s.entries.length by omega ⟩

theorem historyInv_runOps (ops : List HOp) (s : HistoryState)
    (h : HistoryInv s) : HistoryInv (runOps s ops) := by
  induction ops generalizing s with
  | nil => exact h
  | cons op ops ih => exact ih (applyOp s op) (historyInv_applyOp s op h)

/-- C1: starting from the one-entry initial state, every sequence of push
(`saveHistory`), `undo` and `redo` operations keeps the entry list at 10
elements or fewer with the cursor strictly inside it whenever it is
non-empty, and pushing when the ring is full with the cursor at the last
index evicts the oldest entry. -/
theorem history_ring_invariant (s0 : String) (ops : List HOp) :
    (runOps (initialHistory s0) ops).entries.length ≤ 10 ∧
    ((runOps (initialHistory s0) ops).entries ≠ [] →
      (runOps (initialHistory s0) ops).cursor
        < (runOps (initialHistory s0) ops).entries.length) ∧
    (∀ s : HistoryState, ∀ j : String,
      s.entries.length = 10 → s.cursor = 9 →
      (saveHistory s j).entries = s.entries.drop 1 ++ [ j ]) := by
  have h := historyInv_runOps ops (initialHistory s0)
    (by constructor <;> simp [initialHistory])
  refine ⟨ h.1, fun _ => h.2, ?_ ⟩
  intro s j h10 h9
  have htake : s.entries.take (s.cursor + 1) = s.entries :=
    List.take_of_length_le (by omega)
  simp only [saveHistory, htake, h10]
  rw [if_pos (by omega)]

/-- The push operation as the specification words it: append the snapshot
after truncating every entry past the cursor, drop the oldest overflow so at
most 10 entries remain, and move the cursor to the new last index capped
at 9. -/
def pushSpecEntries (s : HistoryState) (j : String) : List String :=
  if 10 < (s.entries.take (s.cursor + 1)).length + 1
  then (s.entries.take (s.cursor + 1) ++ [ j ]).drop
    ((s.entries.take (s.cursor + 1)).length + 1 - 10)
  else s.entries.take (s.cursor + 1) ++ [ j ]

/-- Specification-side push: entries per `pushSpecEntries`, cursor the new
last index capped at 9. -/
def pushSpec (s : HistoryState) (j : String) : HistoryState :=
  { entries := pushSpecEntries s j,
    cursor := min ((pushSpecEntries s j).length - 1) 9 }

/-- C2: on any state satisfying the ring invariant, `saveHistory` realises
the specification's push (truncate past the cursor, cap at 10 dropping the
oldest, cursor to the new last index capped at 9); in particular from
entries `[a, b, c]` at cursor 2, an `undo` followed by a push of `d` yields
entries `[a, b, d]` at cursor 2. -/
theorem saveHistory_branch_discard (s : HistoryState) (j : String)
    (h : HistoryInv s) :
    saveHistory s j = pushSpec s j ∧
    saveHistory (undo { entries := [ "a", "b", "c" ], cursor := 2 }) "d"
      = { entries := [ "a", "b", "d" ], cursor := 2 } := by
  obtain ⟨ h10, hc ⟩ := h
  refine ⟨ ?_, by decide ⟩
  have ht : (s.entries.take (s.cursor + 1)).length = s.cursor + 1 := by
    rw [List.length_take]; omega
  simp only [saveHistory, pushSpec, pushSpecEntries]
  rw [HistoryState.mk.injEq]
  by_cases h9 : 10 ≤ s.cursor + 1
  · rw [if_pos (by omega), if_pos (by omega)]
    have hdrop : ((s.entries.take (s.cursor + 1)).length + 1 - 10) = 1 := by
      omega
    rw [hdrop, List.drop_append_of_le_length (by omega)]
    refine ⟨ rfl, ?_ ⟩
    simp only [List.length_append, List.length_drop, List.length_singleton]
    omega
  · rw [if_neg (by omega), if_neg (by omega)]
    refine ⟨ rfl, ?_ ⟩
    simp only [List.length_append, List.length_singleton]
    omega

/-- Witness for C2 at the concrete state `entries [a, b], cursor 1`. -/
theorem saveHistory_branch_discard_witness :
    saveHistory { entries := [ "a", "b" ], cursor := 1 } "z"
      = pushSpec { entries := [ "a", "b" ], cursor := 1 } "z" ∧
    saveHistory (undo { entries := [ "a", "b", "c" ], cursor := 2 }) "d"
      = { entries := [ "a", "b", "d" ], cursor := 2 } :=
  saveHistory_branch_discard { entries := [ "a", "b" ], cursor := 1 } "z"
    (by decide)

/-- C3: on any state satisfying the ring invariant, an `undo` from a
positive cursor followed by `redo` restores the state — and hence the
visible snapshot — exactly; `undo` is a no-op at cursor 0 and `redo` is a
no-op at the last index. -/
theorem undo_redo_roundtrip (s : HistoryState) (h : HistoryInv s) :
    (0 < s.cursor →
      redo (undo s) = s ∧
      visibleSnapshot (redo (undo s)) = visibleSnapshot s) ∧
    (s.cursor = 0 → undo s = s) ∧
    (s.cursor = s.entries.length - 1 → redo s = s) := by
  obtain ⟨ h10, hc ⟩ := h
  refine ⟨ ?_, ?_, ?_ ⟩
  · intro hpos
    have hundo : undo s = HistoryState.mk s.entries (s.cursor - 1) := by
      simp only [undo]
      rw [if_neg (by omega)]
    have hne : ¬ ((HistoryState.mk s.entries (s.cursor - 1)).entries.length - 1
        ≤ (HistoryState.mk s.entries (s.cursor - 1)).cursor) := by
      show ¬ (s.entries.length - 1 ≤ s.cursor - 1)
      omega
    have hredo : redo (HistoryState.mk s.entries (s.cursor - 1)) = s := by
      simp only [redo]
      rw [if_neg hne]
      show HistoryState.mk s.entries (s.cursor - 1 + 1) = s
      conv_rhs => rw [show s = HistoryState.mk s.entries s.cursor from rfl]
      rw [HistoryState.mk.injEq]
      exact ⟨ rfl, by omega ⟩
    rw [hundo, hredo]
    exact ⟨ rfl, rfl ⟩
  · intro h0
    simp only [undo]
    rw [if_pos (by omega)]
  · intro hlast
    simp only [redo]
    rw [if_pos (by omega)]

/-- Witness for C3 at the concrete state `entries [a, b], cursor 1`. -/
theorem undo_redo_roundtrip_witness :
    (0 < (HistoryState.mk [ "a", "b" ] 1).cursor →
      redo (undo (HistoryState.mk [ "a", "b" ] 1))
        = HistoryState.mk [ "a", "b" ] 1 ∧
      visibleSnapshot (redo (undo (HistoryState.mk [ "a", "b" ] 1)))
        = visibleSnapshot (HistoryState.mk [ "a", "b" ] 1)) ∧
    ((HistoryState.mk [ "a", "b" ] 1).cursor = 0 →
      undo (HistoryState.mk [ "a", "b" ] 1) = HistoryState.mk [ "a", "b" ] 1) ∧
    ((HistoryState.mk [ "a", "b" ] 1).cursor
        = (HistoryState.mk [ "a", "b" ] 1).entries.length - 1 →
      redo (HistoryState.mk [ "a", "b" ] 1) = HistoryState.mk [ "a", "b" ] 1) :=
  undo_redo_roundtrip (HistoryState.mk [ "a", "b" ] 1) (by decide)

/-- The eight declared values of the `StylePreset` union type in
`types/sketch-dream.ts`. -/
inductive StylePreset where
  | photorealistic
  | digitalArt
  | oilPainting
  | anime
  | sketch
  | watercolor
  | cyberpunk
  | fantasy
deriving DecidableEq

/-- The string literal each `StylePreset` value stands for. -/
def StylePreset.key : StylePreset → String
  | .photorealistic => "photorealistic"
  | .digitalArt => "digital-art"
  | .oilPainting => "oil-painting"
  | .anime => "anime"
  | .sketch => "sketch"
  | .watercolor => "watercolor"
  | .cyberpunk => "cyberpunk"
  | .fantasy => "fantasy"

/-- The `styleSuffixes` record of `enhancePrompt` in `generation-service.ts`,
as an association list keyed by the style string. -/
def styleSuffixes : List (String × String) :=
  [ ( "photorealistic",
      ", highly detailed, photorealistic, 8k resolution, cinematic lighting, photography" ),
    ( "digital-art",
      ", digital art, trending on artstation, sharp focus, vibrant colors" ),
    ( "oil-painting",
      ", oil painting texture, classic art style, visible brushstrokes" ),
    ( "anime",
      ", anime style, studio ghibli, vibrant, cel shaded, clean lines" ),
    ( "sketch",
      ", pencil sketch, charcoal drawing, rough lines, artistic" ),
    ( "watercolor",
      ", watercolor painting, soft edges, pastel colors, artistic splatter" ),
    ( "cyberpunk",
      ", cyberpunk, neon lights, futuristic, high tech, dark atmosphere" ),
    ( "fantasy",
      ", high fantasy, magical, ethereal, dreamlike, intricate details" ) ]

/-- The fixed suffix the source's table assigns to each declared style
value. -/
def StylePreset.suffix : StylePreset → String
  | .photorealistic =>
      ", highly detailed, photorealistic, 8k resolution, cinematic lighting, photography"
  | .digitalArt =>
      ", digital art, trending on artstation, sharp focus, vibrant colors"
  | .oilPainting =>
      ", oil painting texture, classic art style, visible brushstrokes"
  | .anime =>
      ", anime style, studio ghibli, vibrant, cel shaded, clean lines"
  | .sketch =>
      ", pencil sketch, charcoal drawing, rough lines, artistic"
  | .watercolor =>
      ", watercolor painting, soft edges, pastel colors, artistic splatter"
  | .cyberpunk =>
      ", cyberpunk, neon lights, futuristic, high tech, dark atmosphere"
  | .fantasy =>
      ", high fantasy, magical, ethereal, dreamlike, intricate details"

/-- Property names a plain JS object literal such as `styleSuffixes`
inherits from `Object.prototype`, which a bracketed property read also
finds. -/
def objectPrototypeProps : List String :=
  [ "constructor", "hasOwnProperty", "isPrototypeOf", "propertyIsEnumerable",
    "toLocaleString", "toString", "valueOf", "__proto__",
    "__defineGetter__", "__defineSetter__", "__lookupGetter__",
    "__lookupSetter__" ]

/-- String the template literal makes of the member inherited under the
given name: reading `__proto__` yields the prototype object itself, printed
`[object Object]`; every other inherited member is a built-in function and
prints in the native-function form (`constructor` is the `Object` function).
The exact native-function text is implementation-defined (ECMA-262 leaves it
to the engine; the form below is the one common engines print), and the
theorems rely only on these strings being non-empty. -/
def objectPrototypeString (name : String) : String :=
  if name == "__proto__" then "[object Object]"
  else if name == "constructor" then "function Object() \x7b [native code] \x7d"
  else "function " ++ name ++ "() \x7b [native code] \x7d"

/-- The JS property read `styleSuffixes[style]` followed by the template
literal's stringification: an own key of the record first, then the
properties the object literal inherits from `Object.prototype`; `none`
when the property is absent altogether. -/
def styleLookup (style : String) : Option String :=
  match styleSuffixes.find? (fun q => q.1 == style) with
  | some q => some q.2
  | none =>
      if objectPrototypeProps.contains style
      then some (objectPrototypeString style)
      else none

/-- The `enhancePrompt` helper of `generation-service.ts`:
`prompt + (styleSuffixes[style] || '')`.  Every value the property read can
produce — the table's suffixes and the inherited `Object.prototype` members
(functions, or the prototype object under `__proto__`) — is truthy, so the
JS falsy fallback to `''` is exactly the absent-property fallback. -/
def enhancePrompt (prompt style : String) : String :=
  prompt ++ ((styleLookup style).getD "")

/-- C4 counterexample: `constructor` is not a key of the suffix table, yet
`enhancePrompt` does not return the prompt unchanged there — the JS
property read finds the inherited `Object.prototype.constructor` function,
which is truthy, and appends its string form. -/
theorem enhancePrompt_total_counterexample :
    "constructor" ∉ styleSuffixes.map Prod.fst ∧
    enhancePrompt "a red fox" "constructor" ≠ "a red fox" := by
  exact ⟨ by decide, by decide ⟩

/-- C4 (amended): for each of the 8 declared style values, `enhancePrompt`
appends that style's fixed suffix; for any style string that is neither a
suffix-table key nor a property name inherited from `Object.prototype` it
returns the prompt unchanged; for an inherited property name the lookup is
truthy, so the prompt comes back with that member's non-empty string form
appended rather than unchanged. -/
theorem enhancePrompt_total (p : String) :
    (∀ st : StylePreset, enhancePrompt p st.key = p ++ st.suffix) ∧
    (∀ style : String, style ∉ styleSuffixes.map Prod.fst →
      style ∉ objectPrototypeProps → enhancePrompt p style = p) ∧
    (∀ style : String, style ∈ objectPrototypeProps →
      objectPrototypeString style ≠ "" ∧
      enhancePrompt p style = p ++ objectPrototypeString style) := by
  refine ⟨ ?_, ?_, ?_ ⟩
  · intro st
    cases st <;> rfl
  · intro style hnot hproto
    have hfind : styleSuffixes.find? (fun q => q.1 == style) = none := by
      rw [List.find?_eq_none]
      intro x hx
      simp only [beq_iff_eq]
      intro hx1
      exact hnot (hx1 ▸ List.mem_map_of_mem Prod.fst hx)
    have hcont : objectPrototypeProps.contains style = false := by
      simpa using hproto
    simp only [enhancePrompt, styleLookup, hfind, hcont]
    simp only [Bool.false_eq_true, if_false, Option.getD_none]
    exact String.append_empty p
  · intro style hs
    simp only [objectPrototypeProps, List.mem_cons, List.not_mem_nil,
      or_false] at hs
    rcases hs with rfl | rfl | rfl | rfl | rfl | rfl | rfl | rfl | rfl
      | rfl | rfl | rfl <;>
      exact ⟨ by decide, rfl ⟩

/-- Prompt store of `TextPromptInput`: the current `prompt` text and the
debounced draft save.  The single pending `saveTimeout` timer is modelled as
the value the pending save would persist (`clearTimeout` + new `setTimeout`
is last-write-wins on this slot). -/
structure TextPromptState where
  prompt : String
  pendingDraftSave : Option String
deriving DecidableEq

/-- The `handleChange` handler: when `value.length <= maxLength`, store the
value and (re)schedule the draft save of that value; otherwise do
nothing. -/
def handleChange (maxLength : Nat) (s : TextPromptState) (value : String) :
    TextPromptState :=
  if value.length ≤ maxLength
  then { prompt := value, pendingDraftSave := some value }
  else s

/-- C6: with `maxLength = 500`, `handleChange` is a no-op (previous value
retained, no draft save scheduled) on input longer than 500 characters —
in particular on a concrete 501-character string — and replaces the stored
prompt for input of length at most 500. -/
theorem handleChange_max_length (s : TextPromptState) (value : String) :
    (500 < value.length → handleChange 500 s value = s) ∧
    (value.length ≤ 500 →
      (handleChange 500 s value).prompt = value ∧
      (handleChange 500 s value).pendingDraftSave = some value) ∧
    handleChange 500 s (String.mk (List.replicate 501 'x')) = s := by
  refine ⟨ ?_, ?_, ?_ ⟩
  · intro h
    simp only [handleChange]
    rw [if_neg (by omega)]
  · intro h
    simp only [handleChange]
    rw [if_pos h]
    exact ⟨ rfl, rfl ⟩
  · have hlen : (String.mk (List.replicate 501 'x')).length = 501 := by
      rw [show (String.mk (List.replicate 501 'x')).length
          = (List.replicate 501 'x').length from rfl, List.length_replicate]
    simp only [handleChange]
    rw [if_neg (by omega)]

/-- The `addToHistory` helper of `TextPromptInput`: no-op on text whose trim
is empty, otherwise `[text, ...history.filter(h => h !== text)].slice(0, 10)`. -/
def addToHistory (history : List String) (text : String) : List String :=
  if text.trim = "" then history
  else (text :: history.filter (fun q => q != text)).take 10

/-- C7: `addToHistory` is a no-op on blank/whitespace-only text; otherwise
the result is headed by the text, contains exactly one occurrence of it
(any prior occurrence is removed), has at most 10 entries, and committing
the same text again immediately changes nothing. -/
theorem addToHistory_recency (history : List String) (text : String) :
    (text.trim = "" → addToHistory history text = history) ∧
    (text.trim ≠ "" →
      (addToHistory history text).head? = some text ∧
      (addToHistory history text).count text = 1 ∧
      (addToHistory history text).length ≤ 10 ∧
      addToHistory (addToHistory history text) text
        = addToHistory history text) := by
  constructor
  · intro h
    simp only [addToHistory]
    rw [if_pos h]
  · intro h
    have hres : addToHistory history text
        = text :: (history.filter (fun q => q != text)).take 9 := by
      simp only [addToHistory]
      rw [if_neg h, show (10 : Nat) = 9 + 1 from rfl, List.take_succ_cons]
    have hnm : text ∉ (history.filter (fun q => q != text)).take 9 := by
      intro hm
      have hq := (List.mem_filter.mp (List.take_subset 9 _ hm)).2
      simp only [bne_self_eq_false] at hq
      exact Bool.false_ne_true hq
    refine ⟨ ?_, ?_, ?_, ?_ ⟩
    · rw [hres]; rfl
    · rw [hres, List.count_cons_self, List.count_eq_zero.mpr hnm]
    · rw [hres]
      simp only [List.length_cons, List.length_take]
      omega
    · rw [hres]
      simp only [addToHistory]
      rw [if_neg h]
      have hfl : (text :: (history.filter (fun q => q != text)).take 9).filter
          (fun q => q != text)
          = (history.filter (fun q => q != text)).take 9 := by
        rw [List.filter_cons]
        simp only [bne_self_eq_false, Bool.false_eq_true, if_false]
        rw [List.filter_eq_self]
        intro a ha
        exact (List.mem_filter.mp (List.take_subset 9 _ ha)).2
      rw [hfl, show (10 : Nat) = 9 + 1 from rfl, List.take_succ_cons,
        List.take_take]
      norm_num

/-- The `GenerationParams` record of `types/sketch-dream.ts` as it exists at
runtime: the style field is the style's string key, `resolution` is
optional. -/
structure GenerationParams where
  sketchStrength : Nat
  style : String
  variations : Nat
  resolution : Option String := none
deriving DecidableEq

/-- One keyed update, mirroring `updateParam(key, value)` of
`ControlParameters`. -/
inductive ParamUpdate where
  | sketchStrength (v : Nat)
  | style (v : String)
  | variations (v : Nat)
  | resolution (v : Option String)

/-- The `updateParam` handler: `setParams(prev => ({...prev, [key]: value}))`. -/
def updateParam (p : GenerationParams) : ParamUpdate → GenerationParams
  | .sketchStrength v => { p with sketchStrength := v }
  | .style v => { p with style := v }
  | .variations v => { p with variations := v }
  | .resolution v => { p with resolution := v }

/-- The `DEFAULT_PARAMS` constant of `ControlParameters`. -/
def DEFAULT_PARAMS : GenerationParams :=
  { sketchStrength := 70, style := "photorealistic", variations := 1 }

/-- The `resetToDefaults` handler: `setParams(DEFAULT_PARAMS)`. -/
def resetToDefaults : GenerationParams := DEFAULT_PARAMS

/-- C8: each `updateParam` sets exactly its own field and leaves every other
field unchanged, and `resetToDefaults` yields exactly
`sketchStrength 70, style photorealistic, variations 1` (no resolution). -/
theorem updateParam_frame_reset (p : GenerationParams) :
    (∀ v : Nat,
      (updateParam p (ParamUpdate.sketchStrength v)).sketchStrength = v ∧
      (updateParam p (ParamUpdate.sketchStrength v)).style = p.style ∧
      (updateParam p (ParamUpdate.sketchStrength v)).variations = p.variations ∧
      (updateParam p (ParamUpdate.sketchStrength v)).resolution = p.resolution) ∧
    (∀ v : String,
      (updateParam p (ParamUpdate.style v)).style = v ∧
      (updateParam p (ParamUpdate.style v)).sketchStrength = p.sketchStrength ∧
      (updateParam p (ParamUpdate.style v)).variations = p.variations ∧
      (updateParam p (ParamUpdate.style v)).resolution = p.resolution) ∧
    (∀ v : Nat,
      (updateParam p (ParamUpdate.variations v)).variations = v ∧
      (updateParam p (ParamUpdate.variations v)).sketchStrength = p.sketchStrength ∧
      (updateParam p (ParamUpdate.variations v)).style = p.style ∧
      (updateParam p (ParamUpdate.variations v)).resolution = p.resolution) ∧
    (∀ v : Option String,
      (updateParam p (ParamUpdate.resolution v)).resolution = v ∧
      (updateParam p (ParamUpdate.resolution v)).sketchStrength = p.sketchStrength ∧
      (updateParam p (ParamUpdate.resolution v)).style = p.style ∧
      (updateParam p (ParamUpdate.resolution v)).variations = p.variations) ∧
    resetToDefaults = { sketchStrength := 70, style := "photorealistic",
                        variations := 1, resolution := none } :=
  ⟨ fun _ => ⟨ rfl, rfl, rfl, rfl ⟩, fun _ => ⟨ rfl, rfl, rfl, rfl ⟩,
    fun _ => ⟨ rfl, rfl, rfl, rfl ⟩, fun _ => ⟨ rfl, rfl, rfl, rfl ⟩, rfl ⟩

/-- Uppercase hexadecimal digit character, as percent-encoding emits. -/
def hexDigit (n : Nat) : Char :=
  if n < 10 then Char.ofNat (48 + n) else Char.ofNat (55 + n)

/-- Characters the JS `encodeURIComponent` leaves unescaped: alphanumerics
and the marks `- _ . ! ~ * ( )` and the apostrophe (code 39). -/
def isUnreservedURI (c : Char) : Bool :=
  c.isAlphanum || c == '-' || c == '_' || c == '.' || c == '!' || c == '~'
    || c == '*' || c == Char.ofNat 39 || c == '(' || c == ')'

/-- UTF-8 byte sequence of one character. -/
def utf8Bytes (c : Char) : List Nat :=
  if c.toNat < 128 then [ c.toNat ]
  else if c.toNat < 2048 then
    [ 192 + c.toNat / 64, 128 + c.toNat % 64 ]
  else if c.toNat < 65536 then
    [ 224 + c.toNat / 4096, 128 + (c.toNat / 64) % 64, 128 + c.toNat % 64 ]
  else
    [ 240 + c.toNat / 262144, 128 + (c.toNat / 4096) % 64,
      128 + (c.toNat / 64) % 64, 128 + c.toNat % 64 ]

/-- Percent-escape of one byte: `%HH`. -/
def percentByte (b : Nat) : List Char :=
  [ '%', hexDigit (b / 16), hexDigit (b % 16) ]

/-- The JS `encodeURIComponent` used by `generateImage`: unreserved
characters pass through, every other character is percent-escaped byte by
byte of its UTF-8 encoding. -/
def encodeURIComponent (s : String) : String :=
  String.mk (s.data.flatMap (fun c =>
    if isUnreservedURI c then [ c ] else (utf8Bytes c).flatMap percentByte))

/-- Value of one hexadecimal digit character (either case). -/
def hexVal (c : Char) : Option Nat :=
  if 48 ≤ c.toNat ∧ c.toNat ≤ 57 then some (c.toNat - 48)
  else if 65 ≤ c.toNat ∧ c.toNat ≤ 70 then some (c.toNat - 55)
  else if 97 ≤ c.toNat ∧ c.toNat ≤ 102 then some (c.toNat - 87)
  else none

/-- Percent-decoding to a byte sequence: each `%HH` escape becomes the byte
`HH`, any other character stands for its own code; `none` on a malformed
escape. -/
def percentDecode : List Char → Option (List Nat)
  | [] => some []
  | '%' :: h1 :: h2 :: rest => do
      let d1 ← hexVal h1
      let d2 ← hexVal h2
      let bs ← percentDecode rest
      pure ((16 * d1 + d2) :: bs)
  | '%' :: _ => none
  | c :: rest => (percentDecode rest).map (fun bs => c.toNat :: bs)

/-- ASCII fragment of the JS `decodeURIComponent`: percent-decode to bytes
and read the bytes as characters.  (The full decoder UTF-8-decodes the byte
sequence; when every byte is ASCII the two agree.) -/
def decodeURIComponentASCII (s : String) : Option String :=
  (percentDecode s.data).bind (fun bs =>
    if bs.all (fun b => b < 128) then some (String.mk (bs.map Char.ofNat))
    else none)

/-- The metadata record `generateImage` returns. -/
structure GenerationMetadata where
  generationTime : Nat
  model : String
  seed : Option Nat
deriving DecidableEq

/-- The `GenerationResponse` record of `types/sketch-dream.ts`. -/
structure GenerationResponse where
  success : Bool
  images : List String
  error : Option String := none
  metadata : Option GenerationMetadata := none
  imageUrl : Option String := none
deriving DecidableEq

set_option linter.unusedVariables false in
/-- The `generateImage` function of `generation-service.ts`.  The call
`Math.floor(Math.random() * 1000000)` is the one non-deterministic input and
is passed here as the explicit argument `seed` (always in `[0, 1000000)` at
runtime); the `sketch` argument is accepted and ignored (`void sketch`). -/
def generateImage (prompt : String) (sketch : String)
    (params : GenerationParams) (seed : Nat) : GenerationResponse :=
  let enhancedPrompt := enhancePrompt prompt params.style
  let encodedPrompt := encodeURIComponent enhancedPrompt
  let width : Nat := 512
  let height : Nat := 512
  let imageUrl := "https://image.pollinations.ai/prompt/" ++ encodedPrompt
    ++ "?width=" ++ toString width ++ "&height=" ++ toString height
    ++ "&seed=" ++ toString seed ++ "&nologo=true&model=flux"
  { success := true,
    images := [ imageUrl ],
    error := none,
    metadata := some { generationTime := 1000, model := "pollinations-flux",
                       seed := some seed },
    imageUrl := some imageUrl }

set_option maxRecDepth 16384 in
/-- C5: for prompt `a red fox` and style `anime`, the augmented prompt is the
expected sentence; the returned URL splits as
`https://image.pollinations.ai/prompt/<segment>?<query>` where the percent-
decoded segment equals the augmented prompt and the query carries
`width=512`, `height=512`, `model=flux` and the seed, an integer in
`[0, 1000000)`. -/
theorem generateImage_url_construction (sketch : String) (seed : Nat)
    (h : seed < 1000000) :
    ∃ seg query : String,
      (generateImage "a red fox" sketch
          { sketchStrength := 70, style := "anime", variations := 1 }
          seed).imageUrl
        = some ("https://image.pollinations.ai/prompt/" ++ seg ++ "?" ++ query) ∧
      decodeURIComponentASCII seg
        = some "a red fox, anime style, studio ghibli, vibrant, cel shaded, clean lines" ∧
      enhancePrompt "a red fox" "anime"
        = "a red fox, anime style, studio ghibli, vibrant, cel shaded, clean lines" ∧
      query = "width=512&height=512&seed=" ++ toString seed
        ++ "&nologo=true&model=flux" ∧
      seed < 1000000 := by
  refine ⟨ encodeURIComponent (enhancePrompt "a red fox" "anime"),
    "width=512&height=512&seed=" ++ toString seed ++ "&nologo=true&model=flux",
    ?_, by decide, rfl, rfl, h ⟩
  show some ("https://image.pollinations.ai/prompt/"
      ++ encodeURIComponent (enhancePrompt "a red fox" "anime")
      ++ "?width=" ++ toString (512 : Nat) ++ "&height=" ++ toString (512 : Nat)
      ++ "&seed=" ++ toString seed ++ "&nologo=true&model=flux")
    = some ("https://image.pollinations.ai/prompt/"
      ++ encodeURIComponent (enhancePrompt "a red fox" "anime") ++ "?"
      ++ ("width=512&height=512&seed=" ++ toString seed
        ++ "&nologo=true&model=flux"))
  refine congrArg some (String.ext ?_)
  simp only [String.data_append]
  rfl

/-- Witness for C5 at the concrete seed 123. -/
theorem generateImage_url_construction_witness :
    ∃ seg query : String,
      (generateImage "a red fox" "sketchdata"
          { sketchStrength := 70, style := "anime", variations := 1 }
          123).imageUrl
        = some ("https://image.pollinations.ai/prompt/" ++ seg ++ "?" ++ query) ∧
      decodeURIComponentASCII seg
        = some "a red fox, anime style, studio ghibli, vibrant, cel shaded, clean lines" ∧
      enhancePrompt "a red fox" "anime"
        = "a red fox, anime style, studio ghibli, vibrant, cel shaded, clean lines" ∧
      query = "width=512&height=512&seed=" ++ toString (123 : Nat)
        ++ "&nologo=true&model=flux" ∧
      (123 : Nat) < 1000000 :=
  generateImage_url_construction "sketchdata" 123 (by decide)

/-- C9: with the random draw made explicit, `generateImage` is deterministic
in `(prompt, params, seed)`; the reported seed is exactly the drawn seed, so
two runs whose draws differ report different seeds, while the request URL of
every run is the same string around the seed digits (identical path segment,
width, height, nologo and model fields). -/
theorem generateImage_seed_contract (prompt sketch : String)
    (params : GenerationParams) (s1 s2 : Nat) :
    (s1 = s2 → generateImage prompt sketch params s1
      = generateImage prompt sketch params s2) ∧
    (generateImage prompt sketch params s1).metadata
      = some { generationTime := 1000, model := "pollinations-flux",
               seed := some s1 } ∧
    (s1 ≠ s2 → (generateImage prompt sketch params s1).metadata
      ≠ (generateImage prompt sketch params s2).metadata) ∧
    (∃ pre post : String, ∀ s : Nat,
      (generateImage prompt sketch params s).imageUrl
        = some (pre ++ toString s ++ post)) := by
  refine ⟨ fun he => congrArg (generateImage prompt sketch params) he,
    rfl, ?_, ?_ ⟩
  · intro hne hmeta
    have h1 : (some { generationTime := 1000, model := "pollinations-flux",
                      seed := some s1 } : Option GenerationMetadata)
        = some { generationTime := 1000, model := "pollinations-flux",
                 seed := some s2 } := hmeta
    simp only [Option.some.injEq, GenerationMetadata.mk.injEq, true_and] at h1
    exact hne h1
  · exact ⟨ "https://image.pollinations.ai/prompt/"
        ++ encodeURIComponent (enhancePrompt prompt params.style)
        ++ "?width=" ++ toString (512 : Nat) ++ "&height="
        ++ toString (512 : Nat) ++ "&seed=",
      "&nologo=true&model=flux", fun _ => rfl ⟩

/-- C10: for every input, `generateImage` reports `success = true` with no
error, its `images` list is exactly the one returned `imageUrl`, and its
metadata is constant apart from the seed: `generationTime` is the literal
1000 and `metadata.model` is `pollinations-flux`, a different identifier
from the `model=flux` the URL's query carries. -/
theorem generateImage_result_shape (prompt sketch : String)
    (params : GenerationParams) (seed : Nat) :
    (generateImage prompt sketch params seed).success = true ∧
    (generateImage prompt sketch params seed).error = none ∧
    (∃ url : String,
      (generateImage prompt sketch params seed).imageUrl = some url ∧
      (generateImage prompt sketch params seed).images = [ url ]) ∧
    (generateImage prompt sketch params seed).metadata
      = some { generationTime := 1000, model := "pollinations-flux",
               seed := some seed } ∧
    ("pollinations-flux" : String) ≠ "flux" ∧
    (∃ pre : String, (generateImage prompt sketch params seed).imageUrl
      = some (pre ++ "&nologo=true&model=flux")) :=
  ⟨ rfl, rfl, ⟨ _, rfl, rfl ⟩, rfl, by decide, ⟨ _, rfl ⟩ ⟩

end SketchDream
